import Mathlib

/-!
Shallow embedding of the Canasta rules engine (MichielRuelens/Canasta).

The repository's `src/` provides `base/game.py`,
`base/actions/discard_card_action.py`, `base/actions/put_action.py` and two
thin runner files.  The card/board/player/team containers (`Card`,
`CardSeries`, `Hand`, `Stack`, `Board`, `Player`, `Team`, `GamePhase`,
`Constants`) are not under `src/`; they are modelled here from the spec,
each such definition marked `Modelled from the spec:`.  Everything that is
under `src/` is translated directly from the Python source.
-/

namespace Canasta

/-- Modelled from the spec: `GamePhase` enum (`base/enums/game_phase.py` is
not under `src/`) — "an enumerated state — draw, action (normal play),
play-joker, end-turn, no-cards variants, finished"; the constructor names
follow the members referenced by the in-src code. -/
inductive GamePhase where
  | DRAW_PHASE
  | ACTION_PHASE
  | PLAY_JOKER_PHASE
  | END_TURN_PHASE
  | NO_CARDS_PHASE
  | NO_CARDS_END_TURN_PHASE
  | FINISHED_PHASE
deriving DecidableEq

/-- Modelled from the spec: `TeamColor` enum (`base/enums/team_color.py` is
not under `src/`); the in-src code uses `TeamColor.RED` and
`TeamColor.BLUE`. -/
inductive TeamColor where
  | RED
  | BLUE
deriving DecidableEq

/-- Modelled from the spec: `Card` (`base/card.py` is not under `src/`) —
"immutable value with rank/suit/special-status (joker, wildcard) and a
point value; equality by identity-within-value".  The point value carried
by the card backs `get_score`. -/
structure Card where
  rank : Nat
  suit : Nat
  joker : Bool
  wildcard : Bool
  score : Nat
deriving DecidableEq

def Card.is_joker (c : Card) : Bool := c.joker

def Card.get_score (c : Card) : Nat := c.score

/-- Modelled from the spec: `CardSeries` (`base/cards/card_series.py` is not
under `src/`) — "an ordered collection of Cards laid down together by a
team". -/
abbrev CardSeries := List Card

/-- Modelled from the spec: a pure series is "a series containing no
wildcards or jokers". -/
def CardSeries.is_pure (s : CardSeries) : Bool :=
  s.all (fun c => !c.joker && !c.wildcard)

/-- Modelled from the spec: the series' "total point value", the sum of its
cards' point values. -/
def CardSeries.get_total_value (s : CardSeries) : Nat :=
  (s.map Card.get_score).sum

/-- Modelled from the spec: the `CardSeries` "validity predicate (minimum
size, rank homogeneity except wildcards/jokers, wildcard-count limits)".
The spec fixes no numbers, so the minimum size is taken as 3 and the limit
as strictly fewer wildcards/jokers than natural cards. -/
def CardSeries.is_valid (s : CardSeries) : Bool :=
  let naturals := s.filter (fun c => !c.joker && !c.wildcard)
  decide (3 ≤ s.length) &&
  naturals.all (fun c => naturals.all (fun d => c.rank == d.rank)) &&
  decide (s.length - naturals.length < naturals.length)

/-- Modelled from the spec: `Team` (`base/team.py` is not under `src/`) —
the team's colour and "a flag for whether the team has 'grabbed' (claimed)
a pile this game"; the player back-references are a relation only and are
kept on the players. -/
structure Team where
  color : TeamColor
  grabbed_pile : Bool
deriving DecidableEq

def Team.has_grabbed_pile (t : Team) : Bool := t.grabbed_pile

/-- Modelled from the spec: `Player` (`base/player.py` is not under `src/`)
— "identity, owning Hand, back-reference to its Team (relation only, not
ownership)"; the team relation is kept as the team's colour.  The hand is
its list of cards ("the set of Cards currently held by one player;
supports membership test, removal-by-value, emptiness check"). -/
structure Player where
  idx : Nat
  hand : List Card
  team_color : TeamColor
deriving DecidableEq

def Player.num_cards (p : Player) : Nat := p.hand.length

/-- Modelled from the spec: `Board` (`base/board.py` is not under `src/`) —
"owns the deck, the discard stack, the two piles, the two teams' series
collections, and the current `GamePhase`".  A pile that has been grabbed is
`none`, backing `num_piles_remaining`.  The per-team hand-clear
authorization state backs `player_may_clear_hand`; the spec leaves its
computation open ("e.g., only after the team has already grabbed a pile or
met a minimum-point threshold"), so it is held as per-team data. -/
structure Board where
  deck : List Card
  left_pile : Option (List Card)
  right_pile : Option (List Card)
  stack : List Card
  red_team_series : List CardSeries
  blue_team_series : List CardSeries
  phase : GamePhase
  may_clear_red : Bool
  may_clear_blue : Bool
deriving DecidableEq

def Board.set_phase (b : Board) (ph : GamePhase) : Board := { b with phase := ph }

/-- Modelled from the spec: number of piles not yet grabbed, backing
`num_piles_remaining`. -/
def Board.num_piles_remaining (b : Board) : Nat :=
  (if b.left_pile.isSome then 1 else 0) + (if b.right_pile.isSome then 1 else 0)

/-- The series collection of the team of the given colour
(`board.red_team_series` / `board.blue_team_series` in `game.py`). -/
def Board.series_for (b : Board) (c : TeamColor) : List CardSeries :=
  match c with
  | TeamColor.RED => b.red_team_series
  | TeamColor.BLUE => b.blue_team_series

def Board.set_series_for (b : Board) (c : TeamColor) (l : List CardSeries) : Board :=
  match c with
  | TeamColor.RED => { b with red_team_series := l }
  | TeamColor.BLUE => { b with blue_team_series := l }

/-- Modelled from the spec: `board.get_series_for_player(player)` returns
the series collection of the player's team. -/
def Board.get_series_for_player (b : Board) (p : Player) : List CardSeries :=
  b.series_for p.team_color

/-- Modelled from the spec: `board.team_has_pure(team)` — whether "that
team has at least one pure series on the board". -/
def Board.team_has_pure (b : Board) (c : TeamColor) : Bool :=
  (b.series_for c).any CardSeries.is_pure

/-- Modelled from the spec: the "Board-level authorization query
parameterized by the pending action" that gates clearing the hand; it
reads the board's per-team authorization state for the player's team. -/
def Board.player_may_clear_hand (b : Board) (p : Player) (_series : List Card) : Bool :=
  match p.team_color with
  | TeamColor.RED => b.may_clear_red
  | TeamColor.BLUE => b.may_clear_blue

/-- Modelled from the spec: `Constants.NUM_PLAYERS` (`base/constants.py` is
not under `src/`) — a "four-player" game. -/
def Constants.NUM_PLAYERS : Nat := 4

/-- Modelled from the spec: `Constants.NUM_TEAMS` — a "two-team" game. -/
def Constants.NUM_TEAMS : Nat := 2

/-! ## Actions (from `src/base/actions/`) -/

/-- `DiscardCardAction` (`src/base/actions/discard_card_action.py`): carries
the card to discard. -/
structure DiscardCardAction where
  card : Card
deriving DecidableEq

/-- `DiscardCardAction.get_reward`: `return 1`. -/
def DiscardCardAction.get_reward (_a : DiscardCardAction) : Nat := 1

/-- `DiscardCardAction.validate`: wrong phase → False; card not in the
player's hand → False; else True. -/
def DiscardCardAction.validate (a : DiscardCardAction) (p : Player) (b : Board) : Bool :=
  if !(b.phase == GamePhase.ACTION_PHASE) then false
  else if !(decide (a.card ∈ p.hand)) then false
  else true

/-- `DiscardCardAction._execute`: `card = player.hand.pop(self.card);
board.stack.put(card)` — remove the card from the hand, push it on the
discard stack. -/
def DiscardCardAction.execute (a : DiscardCardAction) (p : Player) (b : Board) :
    Player × Board :=
  ({ p with hand := p.hand.erase a.card }, { b with stack := a.card :: b.stack })

/-- `DiscardCardAction._target_phase`: no-cards end-turn if the hand is now
empty, else the ordinary end-turn phase. -/
def DiscardCardAction.target_phase (_a : DiscardCardAction) (p : Player) (_b : Board) :
    GamePhase :=
  if p.hand.isEmpty then GamePhase.NO_CARDS_END_TURN_PHASE
  else GamePhase.END_TURN_PHASE

/-- `PutAction` (`src/base/actions/put_action.py`): carries the series of
cards to lay down. -/
structure PutAction where
  series : CardSeries
deriving DecidableEq

/-- `PutAction.get_reward`: "The reward for putting down a series is exactly
equivalent to that series' value" — `return self.series.get_total_value()`. -/
def PutAction.get_reward (a : PutAction) : Nat :=
  CardSeries.get_total_value a.series

/-- `PutAction.validate`, line for line from the source: phase check, joker
check in the play-joker phase, the hand-clear gate, card possession, and
series validity. -/
def PutAction.validate (a : PutAction) (p : Player) (b : Board) : Bool :=
  if !(b.phase == GamePhase.ACTION_PHASE || b.phase == GamePhase.PLAY_JOKER_PHASE) then
    false
  else if b.phase == GamePhase.PLAY_JOKER_PHASE && !(a.series.any Card.is_joker) then
    false
  else if decide (p.num_cards ≤ a.series.length + 1)
      && !(b.player_may_clear_hand p a.series) then
    false
  else if !(a.series.all (fun c => decide (c ∈ p.hand))) then
    false
  else if !(CardSeries.is_valid a.series) then
    false
  else true

/-- `PutAction._execute`: pop every card of the series from the hand and
append the series to the player's team collection. -/
def PutAction.execute (a : PutAction) (p : Player) (b : Board) : Player × Board :=
  let hand1 := a.series.foldl (fun h c => h.erase c) p.hand
  let b1 := b.set_series_for p.team_color (b.series_for p.team_color ++ [a.series])
  ({ p with hand := hand1 }, b1)

/-- `PutAction._target_phase`: no-cards phase if the hand is now empty, else
stay in the action phase. -/
def PutAction.target_phase (_a : PutAction) (p : Player) (_b : Board) : GamePhase :=
  if p.hand.isEmpty then GamePhase.NO_CARDS_PHASE
  else GamePhase.ACTION_PHASE

/-- `PutAction.will_create_pure`: `return self.series.is_pure()` (True iff
executing lays down a pure series). -/
def PutAction.will_create_pure (a : PutAction) (_p : Player) (_b : Board) : Bool :=
  CardSeries.is_pure a.series

/-- Modelled from the spec: the engine's validate-then-execute step for a
discard (the abstract `Action.execute` wrapper of `base/actions/action.py`
is not under `src/`) — "the action is validated against `Board`+`Player`;
if valid it mutates `Board`/`Player` and reports the phase that should
follow", and on a validation failure the action is rejected "without
mutating state". -/
def DiscardCardAction.apply (a : DiscardCardAction) (p : Player) (b : Board) :
    Player × Board :=
  if a.validate p b then
    let pb := a.execute p b
    (pb.1, pb.2.set_phase (a.target_phase pb.1 pb.2))
  else (p, b)

/-- Modelled from the spec: the engine's validate-then-execute step for a
put, as for `DiscardCardAction.apply`. -/
def PutAction.apply (a : PutAction) (p : Player) (b : Board) : Player × Board :=
  if a.validate p b then
    let pb := a.execute p b
    (pb.1, pb.2.set_phase (a.target_phase pb.1 pb.2))
  else (p, b)

/-! ## Game orchestration (from `src/base/game.py`) -/

/-- `Game` (`src/base/game.py`): players, teams, the two turn counters, the
board, the history switch and log, and the `initialized` flag.  The
history log of `(snapshot, action)` pairs is abstracted to the sequence of
action tags the player agents report (a snapshot of the game cannot be
stored inside the game it snapshots). -/
structure Game where
  players : List Player
  teams : List Team
  current_player_index : Nat
  current_team_index : Nat
  board : Board
  keep_history : Bool
  history : List Nat
  initialized : Bool
deriving DecidableEq

/-- The team of the given colour among `g.teams` (the Python player holds a
back-reference to its `Team` object; here the relation is looked up by
colour). -/
def Game.team_grabbed (g : Game) (c : TeamColor) : Bool :=
  (g.teams.find? (fun t => t.color == c)).elim false Team.has_grabbed_pile

/-- `Game.is_finished`: the deck is empty with no piles remaining, or some
player has an empty hand while its team has grabbed its pile and has a
pure on the board. -/
def Game.is_finished (g : Game) : Bool :=
  (g.board.deck.isEmpty && g.board.num_piles_remaining == 0) ||
  g.players.any (fun p =>
    p.hand.isEmpty && g.team_grabbed p.team_color && g.board.team_has_pure p.team_color)

/-- `Game._next_player_turn`: advance both counters modulo the player/team
counts and reset the board phase to the draw phase. -/
def Game.next_player_turn (g : Game) : Game :=
  { g with
    current_player_index := (g.current_player_index + 1) % Constants.NUM_PLAYERS,
    current_team_index := (g.current_team_index + 1) % Constants.NUM_TEAMS,
    board := g.board.set_phase GamePhase.DRAW_PHASE }

/-- A player agent's move, as `Game.play_single_step` sees it: the call
`self.players[self.current_player_index].play_single_step(self.get_state())`
lets the acting player mutate the hands, the teams and the board (by
validating and executing an action) and returns the action taken; the
returned action is abstracted to a numeric tag for the history log. -/
def AgentMove : Type := Game → List Player × List Team × Board × Nat

/-- The game state after the acting player's move, including the history
append (`self.history.add(self, action)` when `keep_history` is set). -/
def Game.after_action (g : Game) (m : List Player × List Team × Board × Nat) : Game :=
  { g with
    players := m.1,
    teams := m.2.1,
    board := m.2.2.1,
    history := if g.keep_history then g.history ++ [m.2.2.2] else g.history }

/-- `Game.play_single_step`: raise when not initialized; do nothing when the
game is finished; otherwise let the acting player move, log the step, and
rotate the turn exactly when the resulting board phase is
`END_TURN_PHASE`. -/
def Game.play_single_step (g : Game) (act : AgentMove) : Except String Game :=
  if !g.initialized then Except.error "Game not initialized"
  else if g.is_finished then Except.ok g
  else
    let g1 := g.after_action (act g)
    if g1.board.phase == GamePhase.END_TURN_PHASE then Except.ok g1.next_player_turn
    else Except.ok g1

/-! ## Card accounting -/

/-- The cards held in an optional pile. -/
def pile_cards (o : Option (List Card)) : Multiset Card :=
  o.elim 0 (fun l => (l : Multiset Card))

/-- The cards of a list of laid-down series. -/
def series_cards (l : List CardSeries) : Multiset Card :=
  (l.map (fun s => Multiset.ofList s)).sum

/-- All cards owned by the board: deck, both piles, discard stack, both
teams' series. -/
def Board.cards (b : Board) : Multiset Card :=
  (b.deck : Multiset Card) + pile_cards b.left_pile + pile_cards b.right_pile +
    (b.stack : Multiset Card) + series_cards b.red_team_series +
    series_cards b.blue_team_series

/-- All cards in play: every player's hand plus the board's containers. -/
def all_cards (ps : List Player) (b : Board) : Multiset Card :=
  (ps.map (fun p => (p.hand : Multiset Card))).sum + b.cards

/-- Removing the members of `s` one by one from `h` (the effect of popping
every card of a series from a hand) removes exactly the multiset `s`. -/
theorem foldl_erase_coe (s : List Card) :
    ∀ h : List Card, (s : Multiset Card) ≤ (h : Multiset Card) →
      ((s.foldl (fun acc c => acc.erase c) h : List Card) : Multiset Card)
        = (h : Multiset Card) - (s : Multiset Card) := by
  induction s with
  | nil => intro h _; simp
  | cons c s ih =>
    intro h hle
    obtain ⟨u, hu⟩ := Multiset.le_iff_exists_add.mp hle
    have herase : ((h.erase c : List Card) : Multiset Card)
        = (s : Multiset Card) + u := by
      rw [← Multiset.coe_erase, hu, ← Multiset.cons_coe, Multiset.cons_add,
        Multiset.erase_cons_head]
    have hs : (s : Multiset Card) ≤ ((h.erase c : List Card) : Multiset Card) := by
      rw [herase]; exact Multiset.le_add_right _ _
    show ((s.foldl (fun acc x => acc.erase x) (h.erase c) : List Card) : Multiset Card)
        = (h : Multiset Card) - ((c :: s : List Card) : Multiset Card)
    rw [ih (h.erase c) hs, herase, hu, ← Multiset.cons_coe, Multiset.cons_add,
      ← Multiset.singleton_add, ← Multiset.singleton_add, add_tsub_cancel_left,
      ← add_assoc, add_tsub_cancel_left]

/-- Updating only the acting player's entry and the board preserves the
global card multiset when the local one is preserved. -/
theorem all_cards_update (pre post : List Player) (p q : Player) (b b2 : Board)
    (h : (q.hand : Multiset Card) + b2.cards = (p.hand : Multiset Card) + b.cards) :
    all_cards (pre ++ q :: post) b2 = all_cards (pre ++ p :: post) b := by
  unfold all_cards
  rw [List.map_append, List.map_append, List.sum_append, List.sum_append,
    List.map_cons, List.map_cons, List.sum_cons, List.sum_cons]
  have e : ∀ x y z w : Multiset Card, x + (y + z) + w = (y + w) + (x + z) := by
    intro x y z w; abel
  rw [e, h, e]

/-- Appending one series to a team collection adds exactly its cards. -/
theorem series_cards_append (l : List CardSeries) (s : CardSeries) :
    series_cards (l ++ [s]) = series_cards l + (s : Multiset Card) := by
  unfold series_cards
  rw [List.map_append, List.sum_append]
  simp

/-! ## Sample objects used by the witness theorems -/

def cW : Card := ⟨3, 0, false, false, 5⟩

def cW2 : Card := ⟨7, 1, false, false, 10⟩

def jW : Card := ⟨0, 0, true, true, 50⟩

/-- An agent move that does nothing (used where the theorem holds for every
agent). -/
def act_id : AgentMove := fun g => (g.players, g.teams, g.board, 0)

def pW : Player := ⟨0, [cW, cW], TeamColor.RED⟩

def bW : Board :=
  ⟨[cW2], some [cW2], some [cW2], [], [], [], GamePhase.ACTION_PHASE, false, false⟩

def bDraw : Board := { bW with phase := GamePhase.DRAW_PHASE }

def bJoker : Board := { bW with phase := GamePhase.PLAY_JOKER_PHASE }

def teamsW : List Team := [⟨TeamColor.RED, false⟩, ⟨TeamColor.BLUE, false⟩]

def playersW : List Player :=
  [⟨0, [cW], TeamColor.RED⟩, ⟨1, [cW2], TeamColor.BLUE⟩,
   ⟨2, [cW2], TeamColor.RED⟩, ⟨3, [cW2], TeamColor.BLUE⟩]

def g_uninit : Game := ⟨playersW, teamsW, 0, 0, bW, true, [], false⟩

def g_fin : Game :=
  ⟨playersW, teamsW, 0, 0,
   { bW with deck := [], left_pile := none, right_pile := none }, true, [], true⟩

/-! ## Theorems -/

/-- C3: whenever executing the put would leave the player holding at most
one card (`num_cards ≤ length series + 1`), `PutAction.validate` returns
false unless the board-level authorization query `player_may_clear_hand`
for that action returns true. -/
theorem put_hand_clear_gate (a : PutAction) (p : Player) (b : Board)
    (h1 : p.num_cards ≤ a.series.length + 1)
    (h2 : b.player_may_clear_hand p a.series = false) :
    a.validate p b = false := by
  unfold PutAction.validate
  have h3 : (decide (p.num_cards ≤ a.series.length + 1)
      && !b.player_may_clear_hand p a.series) = true := by simp [h1, h2]
  rw [h3]
  simp

/-- Witness for C3 at a concrete player, board and put action. -/
theorem put_hand_clear_gate_w :
    pW.num_cards ≤ ([cW] : List Card).length + 1 ∧
    bW.player_may_clear_hand pW [cW] = false ∧
    (PutAction.mk [cW]).validate pW bW = false :=
  ⟨by decide, by decide, put_hand_clear_gate ⟨[cW]⟩ pW bW (by decide) (by decide)⟩

/-- C5: `PutAction.validate` is false outside the action and play-joker
phases, and false in the play-joker phase when the series holds no joker;
`DiscardCardAction.validate` is false outside the action phase and false
when the discarded card is not in the acting player's hand. -/
theorem action_phase_legality :
    (∀ (a : PutAction) (p : Player) (b : Board),
        b.phase ≠ GamePhase.ACTION_PHASE → b.phase ≠ GamePhase.PLAY_JOKER_PHASE →
        a.validate p b = false) ∧
    (∀ (a : PutAction) (p : Player) (b : Board),
        b.phase = GamePhase.PLAY_JOKER_PHASE → a.series.any Card.is_joker = false →
        a.validate p b = false) ∧
    (∀ (a : DiscardCardAction) (p : Player) (b : Board),
        b.phase ≠ GamePhase.ACTION_PHASE → a.validate p b = false) ∧
    (∀ (a : DiscardCardAction) (p : Player) (b : Board),
        a.card ∉ p.hand → a.validate p b = false) := by
  refine ⟨?_, ?_, ?_, ?_⟩
  · intro a p b h1 h2
    simp [PutAction.validate, h1, h2]
  · intro a p b h1 h2
    simp [PutAction.validate, h1, h2]
  · intro a p b h
    simp [DiscardCardAction.validate, h]
  · intro a p b h
    unfold DiscardCardAction.validate
    split
    · rfl
    · simp [h]

/-- Witness for C5: each clause instantiated at a concrete action, player
and board. -/
theorem action_phase_legality_w :
    (PutAction.mk [cW]).validate pW bDraw = false ∧
    (PutAction.mk [cW]).validate pW bJoker = false ∧
    (DiscardCardAction.mk cW).validate pW bDraw = false ∧
    (DiscardCardAction.mk cW2).validate pW bW = false :=
  ⟨action_phase_legality.1 ⟨[cW]⟩ pW bDraw (by decide) (by decide),
   action_phase_legality.2.1 ⟨[cW]⟩ pW bJoker (by decide) (by decide),
   action_phase_legality.2.2.1 ⟨cW⟩ pW bDraw (by decide),
   action_phase_legality.2.2.2 ⟨cW2⟩ pW bW (by decide)⟩

/-- C6: the put reward is exactly the series' total value; the discard
reward is the constant 1, whatever the card. -/
theorem action_rewards :
    (∀ a : PutAction, a.get_reward = CardSeries.get_total_value a.series) ∧
    (∀ c : Card, (DiscardCardAction.mk c).get_reward = 1) :=
  ⟨fun _ => rfl, fun _ => rfl⟩

/-- C7: `play_single_step` on a non-initialized game fails with an error and
produces no successor state. -/
theorem play_single_step_uninitialized (g : Game) (act : AgentMove)
    (h : g.initialized = false) :
    g.play_single_step act = Except.error "Game not initialized" := by
  unfold Game.play_single_step
  simp [h]

/-- Witness for C7 at a concrete non-initialized game. -/
theorem play_single_step_uninitialized_w :
    g_uninit.initialized = false ∧
    g_uninit.play_single_step act_id = Except.error "Game not initialized" :=
  ⟨rfl, play_single_step_uninitialized g_uninit act_id rfl⟩

/-- C8: a validation failure rejects the action with no state mutation: the
validate-then-execute step returns the player and board unchanged whenever
`validate` is false (and `validate` itself is a pure predicate of the
state). -/
theorem validate_failure_no_mutation :
    (∀ (a : DiscardCardAction) (p : Player) (b : Board),
        a.validate p b = false → a.apply p b = (p, b)) ∧
    (∀ (a : PutAction) (p : Player) (b : Board),
        a.validate p b = false → a.apply p b = (p, b)) := by
  constructor
  · intro a p b h
    simp [DiscardCardAction.apply, h]
  · intro a p b h
    simp [PutAction.apply, h]

/-- Witness for C8: rejected discard and put at a concrete state. -/
theorem validate_failure_no_mutation_w :
    (DiscardCardAction.mk cW).apply pW bDraw = (pW, bDraw) ∧
    (PutAction.mk [cW]).apply pW bDraw = (pW, bDraw) :=
  ⟨validate_failure_no_mutation.1 ⟨cW⟩ pW bDraw (by decide),
   validate_failure_no_mutation.2 ⟨[cW]⟩ pW bDraw (by decide)⟩

/-- C4: `is_finished` is true exactly when the deck is empty with no piles
remaining, or some player's hand is empty while that player's team has
grabbed its pile and has at least one pure series on the board. -/
theorem is_finished_iff (g : Game) :
    g.is_finished = true ↔
      (g.board.deck = [] ∧ g.board.num_piles_remaining = 0) ∨
      (∃ p ∈ g.players, p.hand = [] ∧ g.team_grabbed p.team_color = true ∧
        ∃ s ∈ g.board.series_for p.team_color, CardSeries.is_pure s = true) := by
  unfold Game.is_finished Board.team_has_pure
  simp [List.isEmpty_iff, List.any_eq_true, and_assoc]

/-- C10: `play_single_step` on an initialized, finished game returns the
game unchanged, for every agent: no action is requested, nothing is
logged, the counters and the phase stay as they were. -/
theorem play_single_step_finished (g : Game) (act : AgentMove)
    (h1 : g.initialized = true) (h2 : g.is_finished = true) :
    g.play_single_step act = Except.ok g := by
  unfold Game.play_single_step
  simp [h1, h2]

/-- Witness for C10 at a concrete finished game. -/
theorem play_single_step_finished_w :
    g_fin.initialized = true ∧ g_fin.is_finished = true ∧
    g_fin.play_single_step act_id = Except.ok g_fin :=
  ⟨rfl, by decide, play_single_step_finished g_fin act_id rfl (by decide)⟩

/-- C2: neither `DiscardCardAction._execute` nor `PutAction._execute`
creates or destroys a card: under each action's validated precondition
(the discarded card is in the hand; the put series is drawn from the
hand), the multiset of cards across the deck, both piles, the discard
stack, every player's hand and both teams' series is unchanged by the
execute step. -/
theorem card_conservation :
    (∀ (pre post : List Player) (p : Player) (b : Board) (a : DiscardCardAction),
        a.card ∈ p.hand →
        all_cards (pre ++ (a.execute p b).1 :: post) (a.execute p b).2
          = all_cards (pre ++ p :: post) b) ∧
    (∀ (pre post : List Player) (p : Player) (b : Board) (a : PutAction),
        (a.series : Multiset Card) ≤ (p.hand : Multiset Card) →
        all_cards (pre ++ (a.execute p b).1 :: post) (a.execute p b).2
          = all_cards (pre ++ p :: post) b) := by
  constructor
  · intro pre post p b a h
    apply all_cards_update
    have hc : ({a.card} : Multiset Card) ≤ (p.hand : Multiset Card) :=
      Multiset.singleton_le.mpr (Multiset.mem_coe.mpr h)
    have hh : ((p.hand.erase a.card : List Card) : Multiset Card)
        = (p.hand : Multiset Card) - {a.card} := by
      rw [← Multiset.coe_erase, Multiset.sub_singleton]
    have hstack : ((a.card :: b.stack : List Card) : Multiset Card)
        = {a.card} + (b.stack : Multiset Card) := by
      rw [← Multiset.cons_coe, Multiset.singleton_add]
    show ((p.hand.erase a.card : List Card) : Multiset Card)
        + ((b.deck : Multiset Card) + pile_cards b.left_pile + pile_cards b.right_pile
          + ((a.card :: b.stack : List Card) : Multiset Card)
          + series_cards b.red_team_series + series_cards b.blue_team_series)
      = (p.hand : Multiset Card)
        + ((b.deck : Multiset Card) + pile_cards b.left_pile + pile_cards b.right_pile
          + (b.stack : Multiset Card)
          + series_cards b.red_team_series + series_cards b.blue_team_series)
    rw [hh, hstack]
    have e2 : ∀ x y d l r s sr sb : Multiset Card,
        x + (d + l + r + (y + s) + sr + sb) = (x + y) + (d + l + r + s + sr + sb) := by
      intro x y d l r s sr sb; abel
    rw [e2, tsub_add_cancel_of_le hc]
  · intro pre post p b a h
    apply all_cards_update
    have hh := foldl_erase_coe a.series p.hand h
    obtain ⟨i, hand, tc⟩ := p
    have h2 : (a.series : Multiset Card) ≤ (hand : Multiset Card) := h
    cases tc
    · show ((a.series.foldl (fun acc c => acc.erase c) hand : List Card) : Multiset Card)
          + ((b.deck : Multiset Card) + pile_cards b.left_pile + pile_cards b.right_pile
            + (b.stack : Multiset Card)
            + series_cards (b.red_team_series ++ [a.series])
            + series_cards b.blue_team_series)
        = (hand : Multiset Card)
          + ((b.deck : Multiset Card) + pile_cards b.left_pile + pile_cards b.right_pile
            + (b.stack : Multiset Card)
            + series_cards b.red_team_series + series_cards b.blue_team_series)
      rw [hh, series_cards_append]
      have e3 : ∀ x y d l r s sr sb : Multiset Card,
          x + (d + l + r + s + (sr + y) + sb) = (x + y) + (d + l + r + s + sr + sb) := by
        intro x y d l r s sr sb; abel
      rw [e3, tsub_add_cancel_of_le h2]
    · show ((a.series.foldl (fun acc c => acc.erase c) hand : List Card) : Multiset Card)
          + ((b.deck : Multiset Card) + pile_cards b.left_pile + pile_cards b.right_pile
            + (b.stack : Multiset Card)
            + series_cards b.red_team_series
            + series_cards (b.blue_team_series ++ [a.series]))
        = (hand : Multiset Card)
          + ((b.deck : Multiset Card) + pile_cards b.left_pile + pile_cards b.right_pile
            + (b.stack : Multiset Card)
            + series_cards b.red_team_series + series_cards b.blue_team_series)
      rw [hh, series_cards_append]
      have e4 : ∀ x y d l r s sr sb : Multiset Card,
          x + (d + l + r + s + sr + (sb + y)) = (x + y) + (d + l + r + s + sr + sb) := by
        intro x y d l r s sr sb; abel
      rw [e4, tsub_add_cancel_of_le h2]

/-- Witness for C2: a concrete discard and a concrete put, each preserving
the global card multiset. -/
theorem card_conservation_w :
    cW ∈ pW.hand ∧
    (([cW] : List Card) : Multiset Card) ≤ (pW.hand : Multiset Card) ∧
    all_cards ([] ++ ((DiscardCardAction.mk cW).execute pW bW).1 :: [])
        ((DiscardCardAction.mk cW).execute pW bW).2
      = all_cards ([] ++ pW :: []) bW ∧
    all_cards ([] ++ ((PutAction.mk [cW]).execute pW bW).1 :: [])
        ((PutAction.mk [cW]).execute pW bW).2
      = all_cards ([] ++ pW :: []) bW :=
  ⟨by decide, by decide,
   card_conservation.1 [] [] pW bW ⟨cW⟩ (by decide),
   card_conservation.2 [] [] pW bW ⟨[cW]⟩ (by decide)⟩

/-- C9: `will_create_pure` is true exactly when the series the put lays
down is pure, and executing appends exactly that series to the player's
team collection. -/
theorem will_create_pure_iff (a : PutAction) (p : Player) (b : Board) :
    (a.will_create_pure p b = true ↔ CardSeries.is_pure a.series = true) ∧
    (a.execute p b).2.series_for p.team_color =
      b.series_for p.team_color ++ [a.series] := by
  refine ⟨Iff.rfl, ?_⟩
  obtain ⟨i, h, tc⟩ := p
  cases tc <;> rfl

def dummy_player : Player := ⟨0, [], TeamColor.RED⟩

/-- A player agent that plays a discard action through the engine's
validate-then-execute step on the acting player. -/
def run_discard (a : DiscardCardAction) : AgentMove := fun g =>
  let p := (g.players[g.current_player_index]?).getD dummy_player
  let pb := a.apply p g.board
  (g.players.map (fun q => if q.idx == p.idx then pb.1 else q), g.teams, pb.2, 0)

/-- An initialized, unfinished game whose acting player holds one card. -/
def gC1 : Game := ⟨playersW, teamsW, 0, 0, bW, true, [], true⟩

def playersW2 : List Player :=
  [⟨0, [cW, cW2], TeamColor.RED⟩, ⟨1, [cW2], TeamColor.BLUE⟩,
   ⟨2, [cW2], TeamColor.RED⟩, ⟨3, [cW2], TeamColor.BLUE⟩]

/-- An initialized, unfinished game whose acting player holds two cards. -/
def gC1b : Game := ⟨playersW2, teamsW, 0, 0, bW, true, [], true⟩

/-- C1 counterexample: on an initialized, unfinished game, a discard that
empties the acting player's hand leaves the board in the no-cards
end-turn phase — an end-turn variant — yet `play_single_step` neither
advances the player counter nor resets the phase to the draw phase. -/
theorem turn_rotation_cex :
    gC1.initialized = true ∧ gC1.is_finished = false ∧
    (gC1.after_action (run_discard ⟨cW⟩ gC1)).board.phase
      = GamePhase.NO_CARDS_END_TURN_PHASE ∧
    gC1.play_single_step (run_discard ⟨cW⟩)
      = Except.ok (gC1.after_action (run_discard ⟨cW⟩ gC1)) ∧
    (gC1.after_action (run_discard ⟨cW⟩ gC1)).current_player_index
      = gC1.current_player_index ∧
    (gC1.after_action (run_discard ⟨cW⟩ gC1)).board.phase ≠ GamePhase.DRAW_PHASE :=
  ⟨rfl, by decide, by decide, rfl, rfl, by decide⟩

/-- C1 (amended): for every initialized, unfinished game, whenever the
action taken in `play_single_step` leaves the board in the ordinary
end-turn phase, the step rotates to the next player (player counter
advances modulo the player count, team counter modulo the team count) and
resets the board phase to the draw phase; the no-cards end-turn phase does
not trigger this rotation. -/
theorem turn_rotation_end_turn (g : Game) (act : AgentMove)
    (h1 : g.initialized = true) (h2 : g.is_finished = false)
    (h3 : (g.after_action (act g)).board.phase = GamePhase.END_TURN_PHASE) :
    g.play_single_step act = Except.ok ((g.after_action (act g)).next_player_turn) ∧
    ((g.after_action (act g)).next_player_turn).current_player_index
      = (g.current_player_index + 1) % Constants.NUM_PLAYERS ∧
    ((g.after_action (act g)).next_player_turn).current_team_index
      = (g.current_team_index + 1) % Constants.NUM_TEAMS ∧
    ((g.after_action (act g)).next_player_turn).board.phase
      = GamePhase.DRAW_PHASE := by
  refine ⟨?_, rfl, rfl, rfl⟩
  unfold Game.play_single_step
  simp [h1, h2, h3]

/-- Witness for C1 (amended) at a concrete game: the acting player holds
two cards and discards one, so the resulting phase is the ordinary
end-turn phase and the turn rotates. -/
theorem turn_rotation_end_turn_w :
    gC1b.initialized = true ∧ gC1b.is_finished = false ∧
    (gC1b.after_action (run_discard ⟨cW⟩ gC1b)).board.phase
      = GamePhase.END_TURN_PHASE ∧
    (gC1b.play_single_step (run_discard ⟨cW⟩)
      = Except.ok ((gC1b.after_action (run_discard ⟨cW⟩ gC1b)).next_player_turn) ∧
    ((gC1b.after_action (run_discard ⟨cW⟩ gC1b)).next_player_turn).current_player_index
      = (gC1b.current_player_index + 1) % Constants.NUM_PLAYERS ∧
    ((gC1b.after_action (run_discard ⟨cW⟩ gC1b)).next_player_turn).current_team_index
      = (gC1b.current_team_index + 1) % Constants.NUM_TEAMS ∧
    ((gC1b.after_action (run_discard ⟨cW⟩ gC1b)).next_player_turn).board.phase
      = GamePhase.DRAW_PHASE) :=
  ⟨rfl, by decide, by decide,
   turn_rotation_end_turn gC1b (run_discard ⟨cW⟩) rfl (by decide) (by decide)⟩

end Canasta
